import Mathlib

/-!
Shallow embedding of `src/main.py` (a two-player console dice game) and
verification of its specification.  Python integers are modelled as `Int`
(Python's `%` with a positive modulus agrees with `Int.emod`), the player
list as `List Player`, and the random dice source as the set of values
`random.randint` can produce.  Console output and the sqlite3 stores are
side effects irrelevant to the verified properties and are omitted;
the credential store consulted by `authenticate` is passed in as a
function, and the number of queries issued to it is returned explicitly.
-/

namespace DiceGame

/-- `Player.__init__`: a username and a score starting at 0 (the score
field is mutated by the game state machine; here states are passed
explicitly). -/
structure Player where
  username : String
  score : Int
deriving DecidableEq

/-- `GameState.__init__`: current round number (starts at 1), the list of
player objects, and the turn index into that list (starts at 0). -/
structure GameState where
  rounds : Nat
  players : List Player
  turn : Nat
deriving DecidableEq

/-- Placeholder player used to total the partial list indexing
`self.players[i]`; every state the program builds has exactly two
players, so it is never reached there. -/
def defaultPlayer : Player := { username := "", score := 0 }

/-- `GameState._check_double`: on a double the extra die roll is added,
otherwise the sum of the two rolls is returned.  The extra roll is passed
as a parameter; it is consumed only on the double branch, exactly as the
code only draws it there. -/
def check_double (roll1 roll2 extra : Int) : Int :=
  if roll1 = roll2 then roll1 + roll2 + extra else roll1 + roll2

/-- `GameState._check_even`: `if score % 2:` returns the score unchanged
(odd), otherwise adds 10. -/
def check_even (score : Int) : Int :=
  if score % 2 ≠ 0 then score else score + 10

/-- `GameState._check_odd`: `if score % 2:` subtracts 5 and clamps a
negative result to 0, otherwise returns the score unchanged. -/
def check_odd (score : Int) : Int :=
  if score % 2 ≠ 0 then
    if score - 5 < 0 then 0 else score - 5
  else score

/-- `GameState._calculate_scores`: the three rule stages composed in
order (double, then even, then odd). -/
def calculate_scores (roll1 roll2 extra : Int) : Int :=
  check_odd (check_even (check_double roll1 roll2 extra))

/-- Stage 1 exactly as the spec words it: on a double, add the extra
roll. -/
def spec_double_stage (roll1 roll2 extra : Int) : Int :=
  if roll1 = roll2 then roll1 + roll2 + extra else roll1 + roll2

/-- Stage 2 exactly as the spec words it: if the subtotal is even, add
10. -/
def spec_even_stage (subtotal : Int) : Int :=
  if subtotal % 2 = 0 then subtotal + 10 else subtotal

/-- Stage 3 exactly as the spec words it: if the subtotal (after stage 2)
is odd, replace it by `max 0 (subtotal - 5)`. -/
def spec_odd_stage (subtotal : Int) : Int :=
  if subtotal % 2 ≠ 0 then max 0 (subtotal - 5) else subtotal

/-- The spec's `score_round`: the composition of the three stages as the
spec states them. -/
def spec_score_round (roll1 roll2 extra : Int) : Int :=
  spec_odd_stage (spec_even_stage (spec_double_stage roll1 roll2 extra))

/-- The even-stage adjustment (+10) fires on a value exactly when it is
even. -/
def even_fires (score : Int) : Prop := score % 2 = 0

/-- The odd-stage adjustment (−5, floored at 0) fires on a value exactly
when it is odd. -/
def odd_fires (score : Int) : Prop := score % 2 ≠ 0

/-- C1: the code's scoring pipeline is exactly the composition of the
three spec stages (double, then even, then odd), and on the spec's worked
example `score_round(3,3)` with extra roll `5` it returns 6. -/
theorem calculate_scores_is_spec_composition :
    (∀ roll1 roll2 extra : Int,
      calculate_scores roll1 roll2 extra = spec_score_round roll1 roll2 extra) ∧
    calculate_scores 3 3 5 = 6 := by
  constructor
  · intro roll1 roll2 extra
    unfold calculate_scores spec_score_round check_odd check_even check_double
      spec_odd_stage spec_even_stage spec_double_stage
    split_ifs <;> omega
  · decide

/-- C6: on every value entering the even stage, exactly one of the two
adjustments applies — either +10 (value even), after which the odd stage
leaves the result alone, or −5 floored at zero (value odd), the even
stage having left the value alone; never both and never neither. -/
theorem adjustments_mutually_exclusive (s : Int) :
    Xor' (even_fires s) (odd_fires (check_even s)) ∧
    (even_fires s → check_even s = s + 10 ∧ check_odd (check_even s) = s + 10) ∧
    (odd_fires (check_even s) →
      check_even s = s ∧
      check_odd (check_even s) = if s - 5 < 0 then 0 else s - 5) := by
  unfold even_fires odd_fires check_even check_odd Xor'
  split_ifs <;> omega

/-- C7: for die-face inputs (and any die-face extra roll on a double) the
pipeline's result is non-negative, and any intermediate value that would
go below zero under the odd rule is clamped to 0. -/
theorem calculate_scores_nonneg (roll1 roll2 extra : Int)
    (h1 : 1 ≤ roll1 ∧ roll1 ≤ 6) (h2 : 1 ≤ roll2 ∧ roll2 ≤ 6)
    (he : 1 ≤ extra ∧ extra ≤ 6) :
    0 ≤ calculate_scores roll1 roll2 extra ∧
    (∀ s : Int, s % 2 ≠ 0 → s - 5 < 0 → check_odd s = 0) := by
  constructor
  · unfold calculate_scores check_odd check_even check_double
    split_ifs <;> omega
  · intro s hodd hneg
    unfold check_odd
    rw [if_pos hodd, if_pos hneg]

/-- Witness for C7 at the concrete input (3, 4) with extra roll 5. -/
theorem calculate_scores_nonneg_witness :
    ((1 : Int) ≤ 3 ∧ (3 : Int) ≤ 6) ∧ ((1 : Int) ≤ 4 ∧ (4 : Int) ≤ 6) ∧
    ((1 : Int) ≤ 5 ∧ (5 : Int) ≤ 6) ∧
    (0 ≤ calculate_scores 3 4 5 ∧
      (∀ s : Int, s % 2 ≠ 0 → s - 5 < 0 → check_odd s = 0)) :=
  ⟨by decide, by decide, by decide,
    calculate_scores_nonneg 3 4 5 (by decide) (by decide) (by decide)⟩

/-- C10: for all integer inputs (not just die faces) the pipeline's
result is even: an even subtotal gains 10 and stays even, an odd subtotal
loses 5 (or clamps to 0) and becomes even. -/
theorem calculate_scores_even (roll1 roll2 extra : Int) :
    calculate_scores roll1 roll2 extra % 2 = 0 := by
  unfold calculate_scores check_odd check_even check_double
  split_ifs <;> omega

/-- `self.players[i]` (total via the placeholder, see `defaultPlayer`). -/
def getPlayer (s : GameState) (i : Nat) : Player :=
  s.players.getD i defaultPlayer

/-- `current_player.score += n`: a player with the score increased. -/
def addScore (p : Player) (n : Int) : Player :=
  { p with score := p.score + n }

/-- `GameState.play_round`, with the dice outcomes passed explicitly
(two rolls, plus the extra roll drawn only on a double): computes the
round score, adds it to the current player, then swaps the turn,
incrementing the round counter when the turn wraps from 1 back to 0. -/
def play_round (s : GameState) (r1 r2 extra : Int) : GameState :=
  let score := calculate_scores r1 r2 extra
  let players' := s.players.set s.turn (addScore (getPlayer s s.turn) score)
  if s.turn = 0 then
    { s with players := players', turn := 1 }
  else
    { s with players := players', turn := 0, rounds := s.rounds + 1 }

/-- `GameState.is_draw`: the two players' scores are equal. -/
def is_draw (s : GameState) : Bool :=
  decide ((getPlayer s 0).score = (getPlayer s 1).score)

/-- One iteration of the `play_draw` loop body: each player's raw roll
value is added directly to that player's score (no scoring pipeline). -/
def draw_step (s : GameState) (r1 r2 : Int) : GameState :=
  let ps1 := s.players.set 0 (addScore (s.players.getD 0 defaultPlayer) r1)
  let ps2 := ps1.set 1 (addScore (ps1.getD 1 defaultPlayer) r2)
  { s with players := ps2 }

/-- `GameState.play_draw`: repeat `draw_step` while the scores are equal.
`rolls n` supplies the pair of dice outcomes of iteration `n`; `fuel`
bounds the number of iterations, `none` meaning the loop has not
terminated within the budget. -/
def play_draw (fuel : Nat) (rolls : Nat → Int × Int) (s : GameState) :
    Option GameState :=
  match fuel with
  | 0 => if is_draw s then none else some s
  | Nat.succ f =>
      if is_draw s then
        play_draw f (fun n => rolls (n + 1))
          (draw_step s (rolls 0).1 (rolls 0).2)
      else some s

/-- The endgame of `__main__` after the five-round loop: run the draw
loop exactly when the scores are equal. -/
def endgame (fuel : Nat) (rolls : Nat → Int × Int) (s : GameState) :
    Option GameState :=
  if is_draw s then play_draw fuel rolls s else some s

/-- The winner selection of `__main__`: player 0 if their score is
strictly greater, else player 1. -/
def winner (s : GameState) : Player :=
  if (getPlayer s 0).score > (getPlayer s 1).score then getPlayer s 0
  else getPlayer s 1

/-- `GameState.__init__` as `__main__` builds it: round 1, turn 0. -/
def init_state (ps : List Player) : GameState :=
  { rounds := 1, players := ps, turn := 0 }

/-- The game states reachable by `play_round` calls from the initial
state on a given player list. -/
inductive Reachable (ps : List Player) : GameState → Prop where
  | base : Reachable ps (init_state ps)
  | step (s : GameState) (r1 r2 extra : Int) :
      Reachable ps s → Reachable ps (play_round s r1 r2 extra)

theorem reachable_turn_lt_two {ps : List Player} {s : GameState}
    (h : Reachable ps s) : s.turn = 0 ∨ s.turn = 1 := by
  induction h with
  | base => left; rfl
  | step t r1 r2 extra _ _ =>
      unfold play_round
      split_ifs <;> simp

/-- C2: on every reachable game state, `turn` is 0 or 1 and alternates
strictly (0→1 leaving `rounds` unchanged, 1→0 incrementing it), and any
two consecutive `play_round` calls increment `rounds` exactly once,
namely on the call where `turn` wraps from 1 back to 0. -/
theorem play_round_turn_alternates (ps : List Player) (s : GameState)
    (h : Reachable ps s) (r1 r2 e r1' r2' e' : Int) :
    (s.turn = 0 ∨ s.turn = 1) ∧
    (s.turn = 0 →
      (play_round s r1 r2 e).turn = 1 ∧
      (play_round s r1 r2 e).rounds = s.rounds) ∧
    (s.turn = 1 →
      (play_round s r1 r2 e).turn = 0 ∧
      (play_round s r1 r2 e).rounds = s.rounds + 1) ∧
    (play_round (play_round s r1 r2 e) r1' r2' e').rounds = s.rounds + 1 := by
  refine ⟨reachable_turn_lt_two h, ?_, ?_, ?_⟩
  · intro h0
    unfold play_round
    simp [h0]
  · intro h1
    unfold play_round
    simp [h1]
  · rcases reachable_turn_lt_two h with h0 | h1
    · unfold play_round
      simp [h0]
    · unfold play_round
      simp [h1]

/-- Witness for C2 on a concrete two-player initial state with concrete
rolls. -/
theorem play_round_turn_alternates_witness :
    Reachable [Player.mk "a" 0, Player.mk "b" 0]
      (init_state [Player.mk "a" 0, Player.mk "b" 0]) ∧
    (((init_state [Player.mk "a" 0, Player.mk "b" 0]).turn = 0 ∨
      (init_state [Player.mk "a" 0, Player.mk "b" 0]).turn = 1) ∧
     ((init_state [Player.mk "a" 0, Player.mk "b" 0]).turn = 0 →
       (play_round (init_state [Player.mk "a" 0, Player.mk "b" 0]) 1 2 3).turn = 1 ∧
       (play_round (init_state [Player.mk "a" 0, Player.mk "b" 0]) 1 2 3).rounds =
         (init_state [Player.mk "a" 0, Player.mk "b" 0]).rounds) ∧
     ((init_state [Player.mk "a" 0, Player.mk "b" 0]).turn = 1 →
       (play_round (init_state [Player.mk "a" 0, Player.mk "b" 0]) 1 2 3).turn = 0 ∧
       (play_round (init_state [Player.mk "a" 0, Player.mk "b" 0]) 1 2 3).rounds =
         (init_state [Player.mk "a" 0, Player.mk "b" 0]).rounds + 1) ∧
     (play_round (play_round (init_state [Player.mk "a" 0, Player.mk "b" 0]) 1 2 3)
         4 5 6).rounds =
       (init_state [Player.mk "a" 0, Player.mk "b" 0]).rounds + 1) :=
  ⟨Reachable.base,
    play_round_turn_alternates _ _ Reachable.base 1 2 3 4 5 6⟩

/-- C8: `play_round` adds the pipeline score to exactly the current
player (index `turn` before the call), leaves the other player's record
unchanged, and changes no username. -/
theorem play_round_frame (s : GameState) (r1 r2 e : Int)
    (hlen : s.players.length = 2) (ht : s.turn = 0 ∨ s.turn = 1) :
    (getPlayer (play_round s r1 r2 e) s.turn).score =
      (getPlayer s s.turn).score + calculate_scores r1 r2 e ∧
    getPlayer (play_round s r1 r2 e) (1 - s.turn) =
      getPlayer s (1 - s.turn) ∧
    (∀ i : Nat, (getPlayer (play_round s r1 r2 e) i).username =
      (getPlayer s i).username) := by
  obtain ⟨p0, p1, hps⟩ := List.length_eq_two.mp hlen
  rcases ht with h0 | h1
  · refine ⟨?_, ?_, ?_⟩
    · unfold play_round getPlayer addScore
      simp [h0, hps]
    · unfold play_round getPlayer addScore
      simp [h0, hps]
    · intro i
      unfold play_round getPlayer addScore
      match i with
      | 0 => simp [h0, hps]
      | 1 => simp [h0, hps]
      | Nat.succ (Nat.succ n) => simp [h0, hps, defaultPlayer, List.getD]
  · refine ⟨?_, ?_, ?_⟩
    · unfold play_round getPlayer addScore
      simp [h1, hps]
    · unfold play_round getPlayer addScore
      simp [h1, hps]
    · intro i
      unfold play_round getPlayer addScore
      match i with
      | 0 => simp [h1, hps]
      | 1 => simp [h1, hps]
      | Nat.succ (Nat.succ n) => simp [h1, hps, defaultPlayer, List.getD]

/-- Witness for C8 on a concrete two-player state. -/
theorem play_round_frame_witness :
    (init_state [Player.mk "a" 0, Player.mk "b" 0]).players.length = 2 ∧
    ((init_state [Player.mk "a" 0, Player.mk "b" 0]).turn = 0 ∨
     (init_state [Player.mk "a" 0, Player.mk "b" 0]).turn = 1) ∧
    ((getPlayer (play_round (init_state [Player.mk "a" 0, Player.mk "b" 0]) 2 4 1)
        (init_state [Player.mk "a" 0, Player.mk "b" 0]).turn).score =
      (getPlayer (init_state [Player.mk "a" 0, Player.mk "b" 0])
        (init_state [Player.mk "a" 0, Player.mk "b" 0]).turn).score +
        calculate_scores 2 4 1 ∧
    getPlayer (play_round (init_state [Player.mk "a" 0, Player.mk "b" 0]) 2 4 1)
        (1 - (init_state [Player.mk "a" 0, Player.mk "b" 0]).turn) =
      getPlayer (init_state [Player.mk "a" 0, Player.mk "b" 0])
        (1 - (init_state [Player.mk "a" 0, Player.mk "b" 0]).turn) ∧
    (∀ i : Nat,
      (getPlayer (play_round (init_state [Player.mk "a" 0, Player.mk "b" 0]) 2 4 1)
          i).username =
        (getPlayer (init_state [Player.mk "a" 0, Player.mk "b" 0]) i).username)) :=
  ⟨rfl, Or.inl rfl,
    play_round_frame (init_state [Player.mk "a" 0, Player.mk "b" 0]) 2 4 1 rfl
      (Or.inl rfl)⟩

theorem play_draw_some_not_draw :
    ∀ (fuel : Nat) (rolls : Nat → Int × Int) (t t' : GameState),
      play_draw fuel rolls t = some t' → is_draw t' = false := by
  intro fuel
  induction fuel with
  | zero =>
      intro rolls t t' h
      unfold play_draw at h
      split at h
      · exact absurd h (by simp)
      · next hc =>
          cases h
          simpa using hc
  | succ f ih =>
      intro rolls t t' h
      unfold play_draw at h
      split at h
      · exact ih _ _ _ h
      · next hc =>
          cases h
          simpa using hc

/-- C4: one iteration of the `play_draw` loop adds each player's raw
roll directly to that player's score (no scoring pipeline); whenever the
loop returns, the two scores are unequal; and when the scores already
differ the draw phase is not entered at all (the endgame passes the
state through unchanged). -/
theorem play_draw_spec (s : GameState) (r1 r2 : Int)
    (hlen : s.players.length = 2)
    (fuel : Nat) (rolls : Nat → Int × Int) (t t' : GameState)
    (h : play_draw fuel rolls t = some t') :
    (getPlayer (draw_step s r1 r2) 0).score = (getPlayer s 0).score + r1 ∧
    (getPlayer (draw_step s r1 r2) 1).score = (getPlayer s 1).score + r2 ∧
    (getPlayer t' 0).score ≠ (getPlayer t' 1).score ∧
    (is_draw t = false → endgame fuel rolls t = some t) := by
  obtain ⟨p0, p1, hps⟩ := List.length_eq_two.mp hlen
  refine ⟨?_, ?_, ?_, ?_⟩
  · unfold draw_step getPlayer addScore
    simp [hps]
  · unfold draw_step getPlayer addScore
    simp [hps]
  · have := play_draw_some_not_draw fuel rolls t t' h
    simpa [is_draw] using this
  · intro hfalse
    unfold endgame
    simp [hfalse]

/-- Witness for C4 on a concrete two-player state, with a `play_draw`
call that returns on the spot because the scores already differ. -/
theorem play_draw_spec_witness :
    (init_state [Player.mk "a" 0, Player.mk "b" 0]).players.length = 2 ∧
    play_draw 0 (fun _ => (1, 2)) (init_state [Player.mk "a" 0, Player.mk "b" 3]) =
      some (init_state [Player.mk "a" 0, Player.mk "b" 3]) ∧
    ((getPlayer (draw_step (init_state [Player.mk "a" 0, Player.mk "b" 0]) 5 2)
        0).score =
      (getPlayer (init_state [Player.mk "a" 0, Player.mk "b" 0]) 0).score + 5 ∧
    (getPlayer (draw_step (init_state [Player.mk "a" 0, Player.mk "b" 0]) 5 2)
        1).score =
      (getPlayer (init_state [Player.mk "a" 0, Player.mk "b" 0]) 1).score + 2 ∧
    (getPlayer (init_state [Player.mk "a" 0, Player.mk "b" 3]) 0).score ≠
      (getPlayer (init_state [Player.mk "a" 0, Player.mk "b" 3]) 1).score ∧
    (is_draw (init_state [Player.mk "a" 0, Player.mk "b" 3]) = false →
      endgame 0 (fun _ => (1, 2)) (init_state [Player.mk "a" 0, Player.mk "b" 3]) =
        some (init_state [Player.mk "a" 0, Player.mk "b" 3]))) :=
  ⟨rfl, by decide,
    play_draw_spec (init_state [Player.mk "a" 0, Player.mk "b" 0]) 5 2 rfl
      0 (fun _ => (1, 2)) (init_state [Player.mk "a" 0, Player.mk "b" 3])
      (init_state [Player.mk "a" 0, Player.mk "b" 3]) (by decide)⟩

/-- C5: whenever the endgame (tie-break run first exactly when the
scores are equal) produces a final state, the declared winner is the
player whose score is strictly greater than the other player's. -/
theorem winner_strictly_greater (fuel : Nat) (rolls : Nat → Int × Int)
    (s s' : GameState) (h : endgame fuel rolls s = some s') :
    (winner s' = getPlayer s' 0 ∧
      (getPlayer s' 0).score > (getPlayer s' 1).score) ∨
    (winner s' = getPlayer s' 1 ∧
      (getPlayer s' 1).score > (getPlayer s' 0).score) := by
  have hne : (getPlayer s' 0).score ≠ (getPlayer s' 1).score := by
    unfold endgame at h
    split at h
    · simpa [is_draw] using play_draw_some_not_draw fuel rolls s s' h
    · next hc =>
        cases h
        simpa [is_draw] using hc
  unfold winner
  rcases lt_or_gt_of_ne hne with hlt | hgt
  · right
    rw [if_neg (by omega)]
    exact ⟨rfl, hlt⟩
  · left
    rw [if_pos hgt]
    exact ⟨rfl, hgt⟩

/-- Witness for C5 on a concrete endgame run whose final scores are 0
and 3. -/
theorem winner_strictly_greater_witness :
    endgame 0 (fun _ => (1, 2)) (init_state [Player.mk "a" 0, Player.mk "b" 3]) =
      some (init_state [Player.mk "a" 0, Player.mk "b" 3]) ∧
    ((winner (init_state [Player.mk "a" 0, Player.mk "b" 3]) =
        getPlayer (init_state [Player.mk "a" 0, Player.mk "b" 3]) 0 ∧
      (getPlayer (init_state [Player.mk "a" 0, Player.mk "b" 3]) 0).score >
        (getPlayer (init_state [Player.mk "a" 0, Player.mk "b" 3]) 1).score) ∨
     (winner (init_state [Player.mk "a" 0, Player.mk "b" 3]) =
        getPlayer (init_state [Player.mk "a" 0, Player.mk "b" 3]) 1 ∧
      (getPlayer (init_state [Player.mk "a" 0, Player.mk "b" 3]) 1).score >
        (getPlayer (init_state [Player.mk "a" 0, Player.mk "b" 3]) 0).score)) :=
  ⟨by decide,
    winner_strictly_greater 0 (fun _ => (1, 2))
      (init_state [Player.mk "a" 0, Player.mk "b" 3])
      (init_state [Player.mk "a" 0, Player.mk "b" 3]) (by decide)⟩

/-- The set of values `random.randint(1, 7)` in `GameState._roll_dice`
can return: Python's `randint` is inclusive at both ends, so every
integer from 1 to 7 is a possible outcome. -/
def roll_dice_outcomes : Finset Int := Finset.Icc 1 7

/-- The die-face range stated by the docstring of `_roll_dice`
("a die roll between 1 and 6") and by the spec: integers in [1, 6]. -/
def claimed_roll_range : Finset Int := Finset.Icc 1 6

/-- C3 fails on the code: 7 is a possible outcome of the roll in
`_roll_dice` but is outside the documented range [1, 6]. -/
theorem roll_dice_can_exceed_six :
    (7 : Int) ∈ roll_dice_outcomes ∧ (7 : Int) ∉ claimed_roll_range := by
  constructor
  · decide
  · decide

/-- The result of one pass through the body of the `authenticate` loop:
either re-prompt (`continue` back to the top) or sign in a player. -/
inductive AuthResult where
  | retry : AuthResult
  | success : Player → AuthResult
deriving DecidableEq

/-- One iteration of the `authenticate` loop body.  `store` is the
credential store query `SELECT password FROM users WHERE username=?`
(`none` when no row matches), `hash` the SHA-256 digest of a password;
both are opaque parameters here.  The second component counts the
queries issued to the credential store during the iteration. -/
def authenticate_iter (not_allowed : List Player)
    (store : String → Option String) (hash : String → String)
    (username password : String) : AuthResult × Nat :=
  if (not_allowed.filter (fun u => u.username == username)).length > 0 then
    (AuthResult.retry, 0)
  else
    match store username with
    | none => (AuthResult.retry, 1)
    | some required =>
        if hash password = required then
          (AuthResult.success (Player.mk username 0), 1)
        else (AuthResult.retry, 1)

/-- C9: a username already among the players signed in this session is
rejected with a re-prompt, and no query is issued to the credential
store. -/
theorem authenticate_rejects_without_query (not_allowed : List Player)
    (store : String → Option String) (hash : String → String)
    (username password : String)
    (h : ∃ u ∈ not_allowed, u.username = username) :
    authenticate_iter not_allowed store hash username password =
      (AuthResult.retry, 0) := by
  obtain ⟨u, hmem, heq⟩ := h
  have hu : u ∈ not_allowed.filter (fun v => v.username == username) :=
    List.mem_filter.mpr ⟨hmem, by simp [heq]⟩
  unfold authenticate_iter
  rw [if_pos (List.length_pos.mpr (List.ne_nil_of_mem hu))]

/-- Witness for C9: player two re-enters player one's username. -/
theorem authenticate_rejects_without_query_witness :
    (∃ u ∈ [Player.mk "alice" 0], u.username = "alice") ∧
    authenticate_iter [Player.mk "alice" 0] (fun _ => none) (fun s => s)
        "alice" "pw" =
      (AuthResult.retry, 0) :=
  ⟨⟨Player.mk "alice" 0, by simp, rfl⟩,
    authenticate_rejects_without_query [Player.mk "alice" 0] (fun _ => none)
      (fun s => s) "alice" "pw" ⟨Player.mk "alice" 0, by simp, rfl⟩⟩

end DiceGame
